import Mathlib

/-!
Shallow embedding of the PopIn social-network demo's service layer
(`src/services/firebase.ts`, localStorage-simulation branch) and of the
calendar store (`useCalendarStore`), together with proofs about the
hangout-overlap matching, conversation ids, friend requests, the keyed-store
invariant, notification delivery, duplicate-account rejection, and user search.

JavaScript objects used as key-value stores are embedded as association lists
`List (String × α)` that preserve insertion order; property assignment
`obj[k] = v` is `objSet` (overwrite in place or append), `Object.values` is
`vals`, property read is `lookup`.  `Date` values are embedded by their epoch
milliseconds (`Int`), since all date arithmetic in the source goes through
`getTime()` and `toISOString` is injective on dates.  `generateId()` is
embedded as an explicit id supply `gen : Nat → String` with a counter, and
`new Date()` as an explicit `now : Int` parameter.
-/

namespace PopIn

/-! ### JavaScript string primitives -/

/-- Embedding of `String.prototype.toLowerCase`, mapping each character to
lower case. -/
def jsToLower (s : String) : String := ⟨s.data.map Char.toLower⟩

/-- Embedding of substring search on character lists: `hasInfix l sub` is
true when `sub` occurs contiguously inside `l`. -/
def hasInfix : List Char → List Char → Bool
  | l, sub =>
    sub.isPrefixOf l ||
      match l with
      | [] => false
      | _ :: t => hasInfix t sub

/-- Embedding of `s.includes(sub)` for JavaScript strings. -/
def jsIncludes (s sub : String) : Bool := hasInfix s.data sub.data

/-- Lexicographic comparison of character lists, embedding the default
JavaScript string comparison used by `Array.prototype.sort`. -/
def charListLe : List Char → List Char → Bool
  | [], _ => true
  | _ :: _, [] => false
  | a :: as, b :: bs => if a < b then true else if b < a then false else charListLe as bs

/-- Embedding of the JavaScript comparison `a <= b` on strings. -/
def jsStrLe (a b : String) : Bool := charListLe a.data b.data

/-- Embedding of `[a, b].sort()` for a two-element string array. -/
def jsSortPair (a b : String) : List String := if jsStrLe a b then [a, b] else [b, a]

/-- Embedding of `arr.join("-")`. -/
def jsJoinDash (l : List String) : String :=
  match l with
  | [] => ""
  | x :: xs => xs.foldl (fun acc y => acc ++ "-" ++ y) x

/-! ### Key-value stores (JavaScript objects read from localStorage) -/

/-- A JavaScript object used as a keyed store, in insertion order. -/
abbrev Store (α : Type) := List (String × α)

/-- Embedding of `Object.values(m)`. -/
def vals {α : Type} (m : Store α) : List α := m.map Prod.snd

/-- The keys of the store, in insertion order. -/
def keys {α : Type} (m : Store α) : List String := m.map Prod.fst

/-- Property read `m[k]`. -/
def lookup {α : Type} (m : Store α) (k : String) : Option α :=
  (m.find? fun p => p.1 == k).map Prod.snd

/-- Property assignment `m[k] = v`: overwrite an existing key in place,
otherwise append in insertion order. -/
def objSet {α : Type} (m : Store α) (k : String) (v : α) : Store α :=
  if m.any fun p => p.1 == k then m.map fun p => if p.1 == k then (k, v) else p
  else m ++ [(k, v)]

/-- In-place mutation of the record stored under `k` (the JavaScript pattern
`m[k].field = ...`). -/
def objUpdate {α : Type} (m : Store α) (k : String) (f : α → α) : Store α :=
  m.map fun p => if p.1 == k then (p.1, f p.2) else p

/-! ### Data model (`@/types`) -/

/-- Pending friend requests split into sent and received lists. -/
structure FriendRequests where
  sent : List String
  received : List String
deriving DecidableEq

/-- A user record. -/
structure User where
  id : String
  email : String
  username : String
  fullName : String
  friends : List String
  friendRequests : FriendRequests
  createdAt : Int
deriving DecidableEq

/-- The fields of an event supplied by the caller of `createEvent`
(`Omit<Event, "id">`). -/
structure EventInput where
  userId : String
  title : String
  description : String
  startTime : Int
  endTime : Int
  type : String
deriving DecidableEq

/-- A stored event record. -/
structure Event extends EventInput where
  id : String
  createdAt : Int
deriving DecidableEq

/-- An overlap window `{start, end}` between two events, in epoch
milliseconds. -/
structure Overlap where
  start : Int
  «end» : Int
deriving DecidableEq

/-- The free-form `data` payload of a notification. -/
inductive NotificationData where
  | senderData (senderId : String)
  | hangoutData (matchedUserId : String) (overlappingTime : Overlap) (hangoutEvents : List String)
deriving DecidableEq

/-- A notification record. -/
structure Notification where
  id : String
  userId : String
  type : String
  title : String
  message : String
  data : NotificationData
  read : Bool
  createdAt : Int
deriving DecidableEq

/-- A message record. -/
structure Message where
  id : String
  senderId : String
  receiverId : String
  content : String
  conversationId : String
  timestamp : Int
  read : Bool
deriving DecidableEq

/-- An entry of the simulated auth store, keyed by lower-cased email. -/
structure AuthEntry where
  password : String
  userId : String
deriving DecidableEq

/-- Result record of `createUserAccount`. -/
structure CreateUserResult where
  success : Bool
  error : Option String
  user : Option User
deriving DecidableEq

/-! ### `createUserAccount` (services/firebase.ts lines 56-116) -/

/-- Embedding of `createUserAccount`: reject duplicate usernames and emails
(case-insensitively), otherwise create the user record and the auth entry. -/
def createUserAccount (gen : Nat → String) (c0 : Nat) (now : Int)
    (email password username fullName : String)
    (users : Store User) (authData : Store AuthEntry) :
    CreateUserResult × Store User × Store AuthEntry :=
  let userExists := (vals users).any fun user => jsToLower user.username == jsToLower username
  if userExists then
    ({ success := false, error := some "Username already exists", user := none }, users, authData)
  else
    let emailExists := (vals users).any fun user => jsToLower user.email == jsToLower email
    if emailExists then
      ({ success := false, error := some "Email already exists", user := none }, users, authData)
    else
      let userId := gen c0
      let userData : User :=
        { id := userId, email := jsToLower email, username := jsToLower username,
          fullName := fullName, friends := [],
          friendRequests := { sent := [], received := [] }, createdAt := now }
      let users' := objSet users userId userData
      let authData' := objSet authData (jsToLower email) { password := password, userId := userId }
      ({ success := true, error := none, user := some userData }, users', authData')

/-! ### `searchUsers` (services/firebase.ts lines 184-208) -/

/-- Embedding of `searchUsers`: all users other than the searcher whose
username, full name, or email contains the query case-insensitively. -/
def searchUsers (q currentUserId : String) (users : Store User) : List User :=
  (vals users).filter fun userData =>
    userData.id != currentUserId &&
      (jsIncludes (jsToLower userData.username) (jsToLower q) ||
        jsIncludes (jsToLower userData.fullName) (jsToLower q) ||
        jsIncludes (jsToLower userData.email) (jsToLower q))

/-! ### Friend requests (services/firebase.ts lines 210-306) -/

/-- Embedding of `sendFriendRequest`: record the request on both users when
present and notify the receiver. -/
def sendFriendRequest (gen : Nat → String) (c0 : Nat) (now : Int)
    (fromUserId toUserId : String)
    (users : Store User) (notifications : Store Notification) :
    Bool × Store User × Store Notification :=
  let users1 :=
    if (lookup users fromUserId).isSome then
      objUpdate users fromUserId fun u =>
        { u with friendRequests :=
            { u.friendRequests with sent := u.friendRequests.sent ++ [toUserId] } }
    else users
  let users2 :=
    if (lookup users1 toUserId).isSome then
      objUpdate users1 toUserId fun u =>
        { u with friendRequests :=
            { u.friendRequests with received := u.friendRequests.received ++ [fromUserId] } }
    else users1
  let notificationId := gen c0
  let notif : Notification :=
    { id := notificationId, userId := toUserId, type := "friend_request",
      title := "New Friend Request", message := "Someone sent you a friend request",
      data := .senderData fromUserId, read := false, createdAt := now }
  (true, users2, objSet notifications notificationId notif)

/-- Embedding of `acceptFriendRequest`: drop the pending request on both
sides and add each user to the other's friends list. -/
def acceptFriendRequest (userId requesterId : String) (users : Store User) :
    Bool × Store User :=
  let users1 :=
    if (lookup users userId).isSome then
      objUpdate users userId fun u =>
        { u with
            friendRequests :=
              { u.friendRequests with
                  received := u.friendRequests.received.filter fun i => i != requesterId },
            friends := u.friends ++ [requesterId] }
    else users
  let users2 :=
    if (lookup users1 requesterId).isSome then
      objUpdate users1 requesterId fun u =>
        { u with
            friendRequests :=
              { u.friendRequests with
                  sent := u.friendRequests.sent.filter fun i => i != userId },
            friends := u.friends ++ [userId] }
    else users1
  (true, users2)

/-! ### Hangout overlap (services/firebase.ts lines 387-466, calendar store) -/

/-- The inline overlap computation of `checkForHangoutOverlaps`
(lines 406-423): overlap window `[max of starts, min of ends]`, reported when
`overlapStart <= overlapEnd`. -/
def fbOverlap (event : EventInput) (friendEvent : Event) : Option Overlap :=
  let eventStart := event.startTime
  let eventEnd := event.endTime
  let friendStart := friendEvent.startTime
  let friendEnd := friendEvent.endTime
  let overlapStart := max eventStart friendStart
  let overlapEnd := min eventEnd friendEnd
  if overlapStart ≤ overlapEnd then some ⟨overlapStart, overlapEnd⟩ else none

/-- Embedding of `getTimeOverlap` from the calendar store
(`useCalendarStore`): same window, but reported only when
`overlapStart < overlapEnd` (strict). -/
def getTimeOverlap (event1 event2 : Event) : Option Overlap :=
  let start1 := event1.startTime
  let end1 := event1.endTime
  let start2 := event2.startTime
  let end2 := event2.endTime
  let overlapStart := max start1 start2
  let overlapEnd := min end1 end2
  if overlapStart < overlapEnd then some ⟨overlapStart, overlapEnd⟩ else none

/-- The overlap window `[max of starts, min of ends]` of an event input and a
stored event. -/
def overlapOf (event : EventInput) (friendEvent : Event) : Overlap :=
  ⟨max event.startTime friendEvent.startTime, min event.endTime friendEvent.endTime⟩

/-- One `hangout_match` notification as built inside
`checkForHangoutOverlaps`. -/
def hangoutMatchNotif (nid targetId matchedId : String) (overlap : Overlap)
    (eventId friendEventId : String) (now : Int) : Notification :=
  { id := nid, userId := targetId, type := "hangout_match",
    title := "Hangout Match Found!",
    message := "You have an overlapping hangout time with a friend",
    data := .hangoutData matchedId overlap [eventId, friendEventId],
    read := false, createdAt := now }

/-- The `(friendId, friendEvent)` pairs scanned by the nested loops of
`checkForHangoutOverlaps` that pass the userId, type, and overlap checks, in
loop order. -/
def matchedFriendEvents (event : EventInput) (friends : List String)
    (events : Store Event) : List (String × Event) :=
  friends.flatMap fun friendId =>
    ((vals events).filter fun friendEvent =>
        friendEvent.userId == friendId && (friendEvent.type == "hangout" &&
          (fbOverlap event friendEvent).isSome)).map
      fun friendEvent => (friendId, friendEvent)

/-- The two notifications written per matched pair, threading the id
counter through the loop. -/
def notifsForMatches (gen : Nat → String) (now : Int) (eventId : String)
    (event : EventInput) : Nat → List (String × Event) → List Notification
  | _, [] => []
  | c, (friendId, friendEvent) :: rest =>
    hangoutMatchNotif (gen c) event.userId friendId (overlapOf event friendEvent)
        eventId friendEvent.id now ::
      hangoutMatchNotif (gen (c + 1)) friendId event.userId (overlapOf event friendEvent)
        eventId friendEvent.id now ::
        notifsForMatches gen now eventId event (c + 2) rest

/-- Embedding of `checkForHangoutOverlaps`: for each friend hangout
overlapping the new event, store a `hangout_match` notification for each of
the two users. -/
def checkForHangoutOverlaps (gen : Nat → String) (c0 : Nat) (now : Int)
    (eventId : String) (event : EventInput)
    (users : Store User) (events : Store Event)
    (notifications : Store Notification) : Store Notification :=
  match lookup users event.userId with
  | none => notifications
  | some userData =>
    (notifsForMatches gen now eventId event c0
        (matchedFriendEvents event userData.friends events)).foldl
      (fun m n => objSet m n.id n) notifications

/-! ### `createEvent` (services/firebase.ts lines 309-334) -/

/-- Embedding of `createEvent`: store the event under a fresh id and, when it
is a hangout, run the overlap check against the updated events store. -/
def createEvent (gen : Nat → String) (c0 : Nat) (now : Int) (event : EventInput)
    (users : Store User) (events : Store Event)
    (notifications : Store Notification) :
    Option String × Store Event × Store Notification :=
  let eventId := gen c0
  let events' := objSet events eventId { toEventInput := event, id := eventId, createdAt := now }
  let notifications' :=
    if event.type == "hangout" then
      checkForHangoutOverlaps gen (c0 + 1) now eventId event users events' notifications
    else notifications
  (some eventId, events', notifications')

/-! ### Messages (services/firebase.ts lines 469-511) -/

/-- The conversation id of `sendMessage`:
`[senderId, receiverId].sort().join("-")`. -/
def conversationIdFor (senderId receiverId : String) : String :=
  jsJoinDash (jsSortPair senderId receiverId)

/-- Embedding of `sendMessage`: store the message under a fresh id with the
derived conversation id and notify the receiver. -/
def sendMessage (gen : Nat → String) (c0 : Nat) (now : Int)
    (senderId receiverId content : String)
    (messages : Store Message) (notifications : Store Notification) :
    Bool × Store Message × Store Notification :=
  let messageId := gen c0
  let conversationId := conversationIdFor senderId receiverId
  let messages' := objSet messages messageId
    { id := messageId, senderId := senderId, receiverId := receiverId,
      content := content, conversationId := conversationId, timestamp := now,
      read := false }
  let notificationId := gen (c0 + 1)
  let notifications' := objSet notifications notificationId
    { id := notificationId, userId := receiverId, type := "message",
      title := "New Message", message := "You received a new message",
      data := .senderData senderId, read := false, createdAt := now }
  (true, messages', notifications')

/-! ### `getUserNotifications` (services/firebase.ts lines 545-574) -/

/-- Embedding of one polling step of `getUserNotifications`: the target
user's notifications, newest first, truncated to 50. -/
def getUserNotifications (userId : String) (notifications : Store Notification) :
    List Notification :=
  (((vals notifications).filter fun n => n.userId == userId).mergeSort
      fun a b => decide (b.createdAt ≤ a.createdAt)).take 50

/-- Does a notification payload reference exactly the hangout-event pair
`[eid, feid]`? -/
def refsPair (d : NotificationData) (eid feid : String) : Bool :=
  match d with
  | .hangoutData _ _ [e, f] => e == eid && f == feid
  | _ => false

/-! ### The keyed-store invariant -/

/-- Every record of the store sits under a key equal to its own id. -/
def keyedBy {α : Type} (m : Store α) (idOf : α → String) : Prop :=
  ∀ p ∈ m, idOf p.2 = p.1

/-! ### Concrete inputs used by the witnesses -/

/-- An injective id supply standing in for `generateId`. -/
def genW : Nat → String := fun i => ⟨List.replicate i 'x'⟩

/-- Witness user `u1`, friends with `u2`. -/
def u1W : User :=
  { id := "u1", email := "a@x.com", username := "alice", fullName := "Alice A",
    friends := ["u2"], friendRequests := { sent := [], received := [] }, createdAt := 0 }

/-- Witness user `u2`. -/
def u2W : User :=
  { id := "u2", email := "b@x.com", username := "bob", fullName := "Bob B",
    friends := ["u1"], friendRequests := { sent := [], received := ["u1"] }, createdAt := 0 }

/-- Witness users store holding `u1` and `u2`. -/
def usersW : Store User := [("u1", u1W), ("u2", u2W)]

/-- Witness hangout event owned by `u2`, 5 to 15. -/
def friendEventW : Event :=
  { userId := "u2", title := "t2", description := "", startTime := 5, endTime := 15,
    type := "hangout", id := "e2", createdAt := 0 }

/-- Witness events store holding `u2`'s hangout. -/
def eventsW : Store Event := [("e2", friendEventW)]

/-- Witness event input owned by `u1`, 0 to 10, type hangout. -/
def eventInputW : EventInput :=
  { userId := "u1", title := "t", description := "", startTime := 0, endTime := 10,
    type := "hangout" }

/-- Touching events used against the boundary behaviour of the overlap
tests: 0 to 10 and 10 to 20 share only the instant 10. -/
def touchEv1 : Event :=
  { userId := "u1", title := "a", description := "", startTime := 0, endTime := 10,
    type := "hangout", id := "e1", createdAt := 0 }

/-- Second touching event, 10 to 20. -/
def touchEv2 : Event :=
  { userId := "u2", title := "b", description := "", startTime := 10, endTime := 20,
    type := "hangout", id := "e2", createdAt := 0 }

/-- Strictly overlapping events used by the C2 witness, 0 to 10 and 5 to 20. -/
def strictEv1 : Event :=
  { userId := "u1", title := "a", description := "", startTime := 0, endTime := 10,
    type := "hangout", id := "e1", createdAt := 0 }

/-- Second strictly overlapping event, 5 to 20. -/
def strictEv2 : Event :=
  { userId := "u2", title := "b", description := "", startTime := 5, endTime := 20,
    type := "hangout", id := "e2", createdAt := 0 }

/-! ### Store lemmas -/

theorem lookup_eq_none_of_not_mem_keys {α : Type} (m : Store α) (k : String)
    (h : k ∉ keys m) : lookup m k = none := by
  induction m with
  | nil => rfl
  | cons p t ih =>
    simp only [keys, List.map_cons, List.mem_cons, not_or] at h
    have hpk : (p.1 == k) = false := beq_eq_false_iff_ne.mpr (Ne.symm h.1)
    simp only [lookup, List.find?_cons, hpk]
    exact ih h.2

theorem objSet_of_not_mem_keys {α : Type} (m : Store α) (k : String) (v : α)
    (h : k ∉ keys m) : objSet m k v = m ++ [(k, v)] := by
  have hany : (m.any fun p => p.1 == k) = false := by
    rw [List.any_eq_false]
    intro p hp
    simp only [beq_iff_eq]
    intro e
    exact h (e ▸ List.mem_map_of_mem Prod.fst hp)
  simp [objSet, hany]

theorem lookup_objSet_fresh {α : Type} (m : Store α) (k : String) (v : α)
    (h : k ∉ keys m) : lookup (objSet m k v) k = some v := by
  rw [objSet_of_not_mem_keys m k v h]
  have hn : (m.find? fun p => p.1 == k) = none := by
    have h0 := lookup_eq_none_of_not_mem_keys m k h
    simp only [lookup, Option.map_eq_none'] at h0
    exact h0
  simp [lookup, List.find?_append, hn]

theorem lookup_objUpdate_self {α : Type} (m : Store α) (k : String) (f : α → α) :
    lookup (objUpdate m k f) k = (lookup m k).map f := by
  induction m with
  | nil => rfl
  | cons p t ih =>
    cases hb : (p.1 == k) with
    | true =>
      have h1 : objUpdate (p :: t) k f = (p.1, f p.2) :: objUpdate t k f := by
        simp only [objUpdate, List.map_cons]
        rw [if_pos hb]
      rw [h1]
      simp [lookup, List.find?_cons, hb]
    | false =>
      have h1 : objUpdate (p :: t) k f = p :: objUpdate t k f := by
        simp only [objUpdate, List.map_cons]
        rw [if_neg (by simp [hb])]
      rw [h1]
      simp only [lookup, List.find?_cons, hb] at ih ⊢
      exact ih

theorem lookup_objUpdate_ne {α : Type} (m : Store α) (k k' : String) (f : α → α)
    (h : k' ≠ k) : lookup (objUpdate m k f) k' = lookup m k' := by
  induction m with
  | nil => rfl
  | cons p t ih =>
    cases hb : (p.1 == k) with
    | true =>
      have hb' : (p.1 == k') = false :=
        beq_eq_false_iff_ne.mpr (by rw [beq_iff_eq.mp hb]; exact fun e => h e.symm)
      have h1 : objUpdate (p :: t) k f = (p.1, f p.2) :: objUpdate t k f := by
        simp only [objUpdate, List.map_cons]
        rw [if_pos hb]
      rw [h1]
      simp only [lookup, List.find?_cons, hb'] at ih ⊢
      exact ih
    | false =>
      have h1 : objUpdate (p :: t) k f = p :: objUpdate t k f := by
        simp only [objUpdate, List.map_cons]
        rw [if_neg (by simp [hb])]
      rw [h1]
      simp only [lookup, List.find?_cons]
      cases hpk' : (p.1 == k') with
      | true => rfl
      | false =>
        simp only [lookup] at ih
        exact ih

theorem vals_objSet_subset {α : Type} (m : Store α) (k : String) (v : α) (x : α)
    (hx : x ∈ vals (objSet m k v)) : x ∈ vals m ∨ x = v := by
  unfold objSet at hx
  split_ifs at hx with hc
  · rcases List.mem_map.mp hx with ⟨p, hp, hpe⟩
    rcases List.mem_map.mp hp with ⟨p0, hp0, hp0e⟩
    by_cases hk : (p0.1 == k) = true
    · right
      rw [← hpe, ← hp0e]
      simp [hk]
    · left
      rw [← hpe, ← hp0e]
      simp only [hk, Bool.false_eq_true, if_false]
      exact List.mem_map_of_mem Prod.snd hp0
  · unfold vals at hx
    rw [List.map_append] at hx
    rcases List.mem_append.mp hx with hx | hx
    · exact Or.inl hx
    · right
      simpa using hx

theorem keyedBy_objSet {α : Type} (m : Store α) (idOf : α → String) (k : String) (v : α)
    (hm : keyedBy m idOf) (hv : idOf v = k) : keyedBy (objSet m k v) idOf := by
  unfold objSet
  split_ifs with hc
  · intro p hp
    rcases List.mem_map.mp hp with ⟨p0, hp0, hpe⟩
    by_cases hk : (p0.1 == k) = true
    · rw [← hpe]
      simp [hk, hv]
    · rw [← hpe]
      simp only [hk, Bool.false_eq_true, if_false]
      exact hm p0 hp0
  · intro p hp
    rcases List.mem_append.mp hp with hp | hp
    · exact hm p hp
    · rcases List.mem_singleton.mp hp with rfl
      exact hv

theorem keyedBy_objUpdate {α : Type} (m : Store α) (idOf : α → String) (k : String)
    (f : α → α) (hm : keyedBy m idOf) (hf : ∀ a, idOf (f a) = idOf a) :
    keyedBy (objUpdate m k f) idOf := by
  intro p hp
  rcases List.mem_map.mp hp with ⟨p0, hp0, hpe⟩
  by_cases hk : (p0.1 == k) = true
  · rw [← hpe]
    simp only [hk, if_true]
    rw [hf p0.2]
    exact hm p0 hp0
  · rw [← hpe]
    simp only [hk, Bool.false_eq_true, if_false]
    exact hm p0 hp0

/-! ### Overlap characterization (claims C1 and C2) -/

/-- Claim C1 counterexample: the two touching hangout events 0..10 and
10..20 satisfy max(start1,start2) ≤ min(end1,end2), yet `getTimeOverlap` (the
calendar store's hangout-overlap computation, one of the two cited by the
claim) reports no overlap, because it tests strictly. -/
theorem getTimeOverlap_touching_counterexample :
    max touchEv1.startTime touchEv2.startTime ≤ min touchEv1.endTime touchEv2.endTime ∧
      getTimeOverlap touchEv1 touchEv2 = none := by decide

/-- Claim C1 (amended): the service-layer overlap computation inside
`checkForHangoutOverlaps` returns the interval [max(start1,start2),
min(end1,end2)] exactly when max ≤ min; the calendar store's
`getTimeOverlap` returns that interval exactly when max < min (strict), and
reports no overlap otherwise. -/
theorem overlap_computations_characterization (event : EventInput) (friendEvent : Event)
    (e1 e2 : Event) :
    ((fbOverlap event friendEvent).isSome = true ↔
        max event.startTime friendEvent.startTime ≤
          min event.endTime friendEvent.endTime) ∧
      (∀ ov, fbOverlap event friendEvent = some ov →
        ov = ⟨max event.startTime friendEvent.startTime,
          min event.endTime friendEvent.endTime⟩) ∧
      ((getTimeOverlap e1 e2).isSome = true ↔
        max e1.startTime e2.startTime < min e1.endTime e2.endTime) ∧
      (∀ ov, getTimeOverlap e1 e2 = some ov →
        ov = ⟨max e1.startTime e2.startTime, min e1.endTime e2.endTime⟩) := by
  refine ⟨?_, ?_, ?_, ?_⟩ <;>
    simp only [fbOverlap, getTimeOverlap] <;>
    split_ifs with h <;>
    simp [h]

/-- Claim C2 counterexample: on the touching events 0..10 and 10..20 the
overlap test of `checkForHangoutOverlaps` reports an overlap while
`getTimeOverlap` reports none, so the two versions of the check do not reach
the same decision on every pair. -/
theorem overlap_tests_disagree_counterexample :
    (fbOverlap touchEv1.toEventInput touchEv2).isSome = true ∧
      getTimeOverlap touchEv1 touchEv2 = none := by decide

/-- Claim C2 (amended): away from the boundary case
max(start1,start2) = min(end1,end2), the overlap test of
`checkForHangoutOverlaps` and the calendar store's `getTimeOverlap` reach the
same decision and, on overlap, produce the same interval; at the boundary the
former reports the degenerate interval while the latter reports no
overlap. -/
theorem overlap_tests_agree_off_boundary (e1 e2 : Event)
    (h : max e1.startTime e2.startTime ≠ min e1.endTime e2.endTime) :
    ((fbOverlap e1.toEventInput e2).isSome = true ↔
        (getTimeOverlap e1 e2).isSome = true) ∧
      ∀ ov1 ov2, fbOverlap e1.toEventInput e2 = some ov1 →
        getTimeOverlap e1 e2 = some ov2 → ov1 = ov2 := by
  have hst : e1.toEventInput.startTime = e1.startTime := rfl
  have het : e1.toEventInput.endTime = e1.endTime := rfl
  by_cases hle : max e1.startTime e2.startTime ≤ min e1.endTime e2.endTime
  · have hlt : max e1.startTime e2.startTime < min e1.endTime e2.endTime :=
      lt_of_le_of_ne hle h
    constructor
    · simp [fbOverlap, getTimeOverlap, hst, het, hle, hlt]
    · intro ov1 ov2 h1 h2
      simp only [fbOverlap, hst, het, hle, if_true] at h1
      simp only [getTimeOverlap, hlt, if_true] at h2
      rw [← Option.some_inj.mp h1, ← Option.some_inj.mp h2]
  · have hlt : ¬ max e1.startTime e2.startTime < min e1.endTime e2.endTime :=
      fun hl => hle (le_of_lt hl)
    constructor
    · simp [fbOverlap, getTimeOverlap, hst, het, hle, hlt]
    · intro ov1 ov2 h1 h2
      simp only [fbOverlap, hst, het, hle, if_false] at h1
      exact absurd h1 (by simp)

/-- Witness for the amended claim C2, at the strictly overlapping events
0..10 and 5..20. -/
theorem overlap_tests_agree_off_boundary_witness :
    (max strictEv1.startTime strictEv2.startTime ≠
        min strictEv1.endTime strictEv2.endTime) ∧
      (((fbOverlap strictEv1.toEventInput strictEv2).isSome = true ↔
          (getTimeOverlap strictEv1 strictEv2).isSome = true) ∧
        ∀ ov1 ov2, fbOverlap strictEv1.toEventInput strictEv2 = some ov1 →
          getTimeOverlap strictEv1 strictEv2 = some ov2 → ov1 = ov2) :=
  ⟨by decide, overlap_tests_agree_off_boundary strictEv1 strictEv2 (by decide)⟩

/-! ### `searchUsers` (claim C10) -/

/-- Claim C10: every user delivered by `searchUsers` has an id different
from the searching user's id, and matches the query case-insensitively in
username, full name, or email. -/
theorem searchUsers_spec (q currentUserId : String) (users : Store User)
    (u : User) (hu : u ∈ searchUsers q currentUserId users) :
    u.id ≠ currentUserId ∧
      (jsIncludes (jsToLower u.username) (jsToLower q) = true ∨
        jsIncludes (jsToLower u.fullName) (jsToLower q) = true ∨
        jsIncludes (jsToLower u.email) (jsToLower q) = true) := by
  have h := (List.mem_filter.mp hu).2
  simp only [Bool.and_eq_true, Bool.or_eq_true, bne_iff_ne] at h
  exact ⟨h.1, or_assoc.mp h.2⟩

/-- Witness for claim C10: user `u2` is delivered for the query "bo" issued
by `u1`, and satisfies the property. -/
theorem searchUsers_spec_witness :
    u2W.id ≠ "u1" ∧
      (jsIncludes (jsToLower u2W.username) (jsToLower "bo") = true ∨
        jsIncludes (jsToLower u2W.fullName) (jsToLower "bo") = true ∨
        jsIncludes (jsToLower u2W.email) (jsToLower "bo") = true) :=
  searchUsers_spec "bo" "u1" usersW u2W (by decide)

/-! ### `getUserNotifications` (claim C8) -/

/-- Claim C8: `getUserNotifications` delivers only notifications whose
target user is the requested id, sorted by creation timestamp newest first,
and delivers at most 50 of them. -/
theorem getUserNotifications_spec (userId : String)
    (notifications : Store Notification) :
    (∀ n ∈ getUserNotifications userId notifications, n.userId = userId) ∧
      (getUserNotifications userId notifications).Pairwise
        (fun a b => b.createdAt ≤ a.createdAt) ∧
      (getUserNotifications userId notifications).length ≤ 50 := by
  refine ⟨?_, ?_, ?_⟩
  · intro n hn
    have h1 : n ∈ ((vals notifications).filter fun n => n.userId == userId).mergeSort
        (fun a b => decide (b.createdAt ≤ a.createdAt)) := List.mem_of_mem_take hn
    have h2 := List.mem_mergeSort.mp h1
    exact beq_iff_eq.mp (List.mem_filter.mp h2).2
  · have hs := @List.sorted_mergeSort Notification
      (fun a b : Notification => decide (b.createdAt ≤ a.createdAt))
      (fun a b c hab hbc => by
        simp only [decide_eq_true_eq] at hab hbc ⊢
        exact le_trans hbc hab)
      (fun a b => by
        simp only [Bool.or_eq_true, decide_eq_true_eq]
        exact le_total b.createdAt a.createdAt)
      ((vals notifications).filter fun n => n.userId == userId)
    have hp := hs.imp (fun h => by simpa only [decide_eq_true_eq] using h)
    exact List.Pairwise.sublist (List.take_sublist _ _) hp
  · exact List.length_take_le _ _

/-! ### Conversation ids (claim C4) -/

theorem charListLe_total (a b : List Char) : charListLe a b = true ∨ charListLe b a = true := by
  induction a generalizing b with
  | nil => left; rfl
  | cons x xs ih =>
    cases b with
    | nil => right; rfl
    | cons y ys =>
      simp only [charListLe]
      rcases lt_trichotomy x y with h | h | h
      · left; simp [h]
      · subst h; simpa [lt_irrefl] using ih ys
      · right; simp [h]

theorem charListLe_antisymm (a b : List Char) (h1 : charListLe a b = true)
    (h2 : charListLe b a = true) : a = b := by
  induction a generalizing b with
  | nil =>
    cases b with
    | nil => rfl
    | cons y ys => simp [charListLe] at h2
  | cons x xs ih =>
    cases b with
    | nil => simp [charListLe] at h1
    | cons y ys =>
      simp only [charListLe] at h1 h2
      rcases lt_trichotomy x y with h | h | h
      · simp [h, not_lt_of_lt h] at h2
      · subst h
        simp only [lt_irrefl, if_false] at h1 h2
        rw [ih ys h1 h2]
      · simp [h, not_lt_of_lt h] at h1

theorem jsStrLe_total (a b : String) : jsStrLe a b = true ∨ jsStrLe b a = true :=
  charListLe_total a.data b.data

theorem jsStrLe_antisymm (a b : String) (h1 : jsStrLe a b = true)
    (h2 : jsStrLe b a = true) : a = b := by
  cases a with
  | mk da =>
    cases b with
    | mk db => exact congrArg String.mk (charListLe_antisymm da db h1 h2)

theorem conversationIdFor_comm (a b : String) :
    conversationIdFor a b = conversationIdFor b a := by
  unfold conversationIdFor jsSortPair
  cases hab : jsStrLe a b with
  | true =>
    cases hba : jsStrLe b a with
    | true =>
      have h := jsStrLe_antisymm a b hab hba
      subst h
      rfl
    | false => simp [hab, hba]
  | false =>
    have hba : jsStrLe b a = true := by
      rcases jsStrLe_total a b with hc | hc
      · rw [hc] at hab; cases hab
      · exact hc
    simp [hab, hba]

/-- Claim C4: the conversation id stored by `sendMessage` is a deterministic,
symmetric function of the two participant ids — sending from `senderId` to
`receiverId` or the other way round stores the same conversation id, equal to
the two ids lexicographically sorted and joined with "-". -/
theorem sendMessage_conversationId_symmetric (gen : Nat → String) (c0 : Nat) (now : Int)
    (senderId receiverId content : String)
    (messages : Store Message) (notifications : Store Notification)
    (hfresh : gen c0 ∉ keys messages) :
    ∃ m1 m2 : Message,
      lookup (sendMessage gen c0 now senderId receiverId content messages notifications).2.1
          (gen c0) = some m1 ∧
      lookup (sendMessage gen c0 now receiverId senderId content messages notifications).2.1
          (gen c0) = some m2 ∧
      m1.conversationId = m2.conversationId ∧
      m1.conversationId = jsJoinDash (jsSortPair senderId receiverId) ∧
      (jsStrLe senderId receiverId = true →
        m1.conversationId = senderId ++ "-" ++ receiverId) ∧
      (jsStrLe senderId receiverId = false →
        m1.conversationId = receiverId ++ "-" ++ senderId) := by
  refine ⟨{ id := gen c0, senderId := senderId, receiverId := receiverId,
            content := content, conversationId := conversationIdFor senderId receiverId,
            timestamp := now, read := false },
          { id := gen c0, senderId := receiverId, receiverId := senderId,
            content := content, conversationId := conversationIdFor receiverId senderId,
            timestamp := now, read := false }, ?_, ?_, ?_, rfl, ?_, ?_⟩
  · exact lookup_objSet_fresh messages (gen c0) _ hfresh
  · exact lookup_objSet_fresh messages (gen c0) _ hfresh
  · exact conversationIdFor_comm senderId receiverId
  · intro h
    show conversationIdFor senderId receiverId = _
    unfold conversationIdFor jsSortPair
    simp [h]
    rfl
  · intro h
    show conversationIdFor senderId receiverId = _
    unfold conversationIdFor jsSortPair
    simp [h]
    rfl

/-- Witness for claim C4, at senders "u1" and "u2" over empty stores. -/
theorem sendMessage_conversationId_symmetric_witness :
    ∃ m1 m2 : Message,
      lookup (sendMessage genW 0 0 "u1" "u2" "hi" [] []).2.1 (genW 0) = some m1 ∧
      lookup (sendMessage genW 0 0 "u2" "u1" "hi" [] []).2.1 (genW 0) = some m2 ∧
      m1.conversationId = m2.conversationId ∧
      m1.conversationId = jsJoinDash (jsSortPair "u1" "u2") ∧
      (jsStrLe "u1" "u2" = true → m1.conversationId = "u1" ++ "-" ++ "u2") ∧
      (jsStrLe "u1" "u2" = false → m1.conversationId = "u2" ++ "-" ++ "u1") :=
  sendMessage_conversationId_symmetric genW 0 0 "u1" "u2" "hi" [] [] (by simp [keys])

/-! ### `createUserAccount` duplicate rejection (claim C9) -/

/-- Claim C9: when a user with the same username or the same email (compared
case-insensitively) already exists, `createUserAccount` fails with an error
message and leaves both the users store and the auth store unchanged. -/
theorem createUserAccount_duplicate_rejected (gen : Nat → String) (c0 : Nat) (now : Int)
    (email password username fullName : String)
    (users : Store User) (authData : Store AuthEntry)
    (h : ((vals users).any fun u => jsToLower u.username == jsToLower username) = true ∨
      ((vals users).any fun u => jsToLower u.email == jsToLower email) = true) :
    (createUserAccount gen c0 now email password username fullName users authData).1.success
        = false ∧
      (createUserAccount gen c0 now email password username fullName users
          authData).1.error.isSome = true ∧
      (createUserAccount gen c0 now email password username fullName users authData).2.1
        = users ∧
      (createUserAccount gen c0 now email password username fullName users authData).2.2
        = authData := by
  rcases h with h | h
  · simp [createUserAccount, h]
  · cases h1 : ((vals users).any fun u => jsToLower u.username == jsToLower username) with
    | true => simp [createUserAccount, h1]
    | false => simp [createUserAccount, h1, h]

/-- Witness for claim C9: registering a second "alice" against the witness
store is rejected and mutates nothing. -/
theorem createUserAccount_duplicate_rejected_witness :
    (createUserAccount genW 0 0 "new@x.com" "pw" "alice" "Alice Two" usersW []).1.success
        = false ∧
      (createUserAccount genW 0 0 "new@x.com" "pw" "alice" "Alice Two" usersW
          []).1.error.isSome = true ∧
      (createUserAccount genW 0 0 "new@x.com" "pw" "alice" "Alice Two" usersW []).2.1
        = usersW ∧
      (createUserAccount genW 0 0 "new@x.com" "pw" "alice" "Alice Two" usersW []).2.2
        = ([] : Store AuthEntry) :=
  createUserAccount_duplicate_rejected genW 0 0 "new@x.com" "pw" "alice" "Alice Two"
    usersW [] (Or.inl (by decide))

/-! ### `acceptFriendRequest` (claim C6) -/

/-- Claim C6: for two distinct users present in the store,
`acceptFriendRequest` removes the requester from the accepting user's
received list, removes the accepting user from the requester's sent list,
adds each user's id to the other's friends list, and returns success. -/
theorem acceptFriendRequest_spec (userId requesterId : String) (users : Store User)
    (u r : User) (hu : lookup users userId = some u)
    (hr : lookup users requesterId = some r) (hne : userId ≠ requesterId) :
    (acceptFriendRequest userId requesterId users).1 = true ∧
      ∃ u' r',
        lookup (acceptFriendRequest userId requesterId users).2 userId = some u' ∧
        lookup (acceptFriendRequest userId requesterId users).2 requesterId = some r' ∧
        u'.friendRequests.received =
          u.friendRequests.received.filter (fun i => i != requesterId) ∧
        u'.friends = u.friends ++ [requesterId] ∧
        u'.friendRequests.sent = u.friendRequests.sent ∧
        r'.friendRequests.sent = r.friendRequests.sent.filter (fun i => i != userId) ∧
        r'.friends = r.friends ++ [userId] ∧
        r'.friendRequests.received = r.friendRequests.received := by
  have hs : (acceptFriendRequest userId requesterId users).2 =
      objUpdate (objUpdate users userId fun u =>
        { u with
            friendRequests :=
              { u.friendRequests with
                  received := u.friendRequests.received.filter fun i => i != requesterId },
            friends := u.friends ++ [requesterId] })
        requesterId fun u =>
        { u with
            friendRequests :=
              { u.friendRequests with
                  sent := u.friendRequests.sent.filter fun i => i != userId },
            friends := u.friends ++ [userId] } := by
    simp only [acceptFriendRequest, hu, Option.isSome_some, if_true]
    rw [lookup_objUpdate_ne users userId requesterId _ (Ne.symm hne), hr]
    simp
  refine ⟨rfl, ?_⟩
  rw [hs]
  refine ⟨{ u with
            friendRequests :=
              { u.friendRequests with
                  received := u.friendRequests.received.filter fun i => i != requesterId },
            friends := u.friends ++ [requesterId] },
          { r with
            friendRequests :=
              { r.friendRequests with
                  sent := r.friendRequests.sent.filter fun i => i != userId },
            friends := r.friends ++ [userId] },
          ?_, ?_, rfl, rfl, rfl, rfl, rfl, rfl⟩
  · rw [lookup_objUpdate_ne _ requesterId userId _ hne, lookup_objUpdate_self, hu]
    rfl
  · rw [lookup_objUpdate_self, lookup_objUpdate_ne users userId requesterId _ (Ne.symm hne),
      hr]
    rfl

/-- Witness for claim C6: `u2` accepts `u1`'s pending request in the witness
store. -/
theorem acceptFriendRequest_spec_witness :
    (acceptFriendRequest "u2" "u1" usersW).1 = true ∧
      ∃ u' r',
        lookup (acceptFriendRequest "u2" "u1" usersW).2 "u2" = some u' ∧
        lookup (acceptFriendRequest "u2" "u1" usersW).2 "u1" = some r' ∧
        u'.friendRequests.received =
          u2W.friendRequests.received.filter (fun i => i != "u1") ∧
        u'.friends = u2W.friends ++ ["u1"] ∧
        u'.friendRequests.sent = u2W.friendRequests.sent ∧
        r'.friendRequests.sent = u1W.friendRequests.sent.filter (fun i => i != "u2") ∧
        r'.friends = u1W.friends ++ ["u2"] ∧
        r'.friendRequests.received = u1W.friendRequests.received :=
  acceptFriendRequest_spec "u2" "u1" usersW u2W u1W (by decide) (by decide) (by decide)

/-! ### The keyed-store invariant across the operations (claim C7) -/

theorem keyedBy_foldl_objSetNotif (ns : List Notification) (m : Store Notification)
    (hm : keyedBy m Notification.id) :
    keyedBy (ns.foldl (fun acc n => objSet acc n.id n) m) Notification.id := by
  induction ns generalizing m with
  | nil => exact hm
  | cons n t ih => exact ih _ (keyedBy_objSet m Notification.id n.id n hm rfl)

theorem keyedBy_checkForHangoutOverlaps (gen : Nat → String) (c0 : Nat) (now : Int)
    (eventId : String) (event : EventInput) (users : Store User) (events : Store Event)
    (notifications : Store Notification)
    (hn : keyedBy notifications Notification.id) :
    keyedBy (checkForHangoutOverlaps gen c0 now eventId event users events notifications)
      Notification.id := by
  unfold checkForHangoutOverlaps
  split
  · exact hn
  · exact keyedBy_foldl_objSetNotif _ _ hn

/-- Claim C7: every store-writing operation keeps the users, events,
messages, and notifications stores keyed by the stored record's own id
field. -/
theorem stores_keyed_by_id (gen : Nat → String) (c0 : Nat) (now : Int)
    (email password username fullName content fromUserId toUserId senderId receiverId
      eventId : String)
    (event : EventInput)
    (users : Store User) (authData : Store AuthEntry) (events : Store Event)
    (messages : Store Message) (notifications : Store Notification)
    (husers : keyedBy users User.id) (hevents : keyedBy events Event.id)
    (hmessages : keyedBy messages Message.id)
    (hnotifs : keyedBy notifications Notification.id) :
    keyedBy (createUserAccount gen c0 now email password username fullName users
        authData).2.1 User.id ∧
      keyedBy (createEvent gen c0 now event users events notifications).2.1 Event.id ∧
      keyedBy (createEvent gen c0 now event users events notifications).2.2
        Notification.id ∧
      keyedBy (sendMessage gen c0 now senderId receiverId content messages
        notifications).2.1 Message.id ∧
      keyedBy (sendMessage gen c0 now senderId receiverId content messages
        notifications).2.2 Notification.id ∧
      keyedBy (sendFriendRequest gen c0 now fromUserId toUserId users
        notifications).2.1 User.id ∧
      keyedBy (sendFriendRequest gen c0 now fromUserId toUserId users
        notifications).2.2 Notification.id ∧
      keyedBy (checkForHangoutOverlaps gen c0 now eventId event users events
        notifications) Notification.id := by
  refine ⟨?_, ?_, ?_, ?_, ?_, ?_, ?_, ?_⟩
  · simp only [createUserAccount]
    split_ifs with h1 h2
    · exact husers
    · exact husers
    · exact keyedBy_objSet users User.id (gen c0) _ husers rfl
  · exact keyedBy_objSet events Event.id (gen c0) _ hevents rfl
  · simp only [createEvent]
    split_ifs with h
    · exact keyedBy_checkForHangoutOverlaps _ _ _ _ _ _ _ _ hnotifs
    · exact hnotifs
  · exact keyedBy_objSet messages Message.id (gen c0) _ hmessages rfl
  · exact keyedBy_objSet notifications Notification.id (gen (c0 + 1)) _ hnotifs rfl
  · simp only [sendFriendRequest]
    split_ifs with h1 h2 h3
    · exact keyedBy_objUpdate _ _ _ _
        (keyedBy_objUpdate _ _ _ _ husers fun a => rfl) fun a => rfl
    · exact keyedBy_objUpdate _ _ _ _ husers fun a => rfl
    · exact keyedBy_objUpdate _ _ _ _ husers fun a => rfl
    · exact husers
  · exact keyedBy_objSet notifications Notification.id (gen c0) _ hnotifs rfl
  · exact keyedBy_checkForHangoutOverlaps _ _ _ _ _ _ _ _ hnotifs

/-- Witness for claim C7, at empty stores. -/
theorem stores_keyed_by_id_witness :
    keyedBy (createUserAccount genW 0 0 "e@x.com" "pw" "un" "fn" [] []).2.1 User.id ∧
      keyedBy (createEvent genW 0 0 eventInputW [] [] []).2.1 Event.id ∧
      keyedBy (createEvent genW 0 0 eventInputW [] [] []).2.2 Notification.id ∧
      keyedBy (sendMessage genW 0 0 "u1" "u2" "hi" [] []).2.1 Message.id ∧
      keyedBy (sendMessage genW 0 0 "u1" "u2" "hi" [] []).2.2 Notification.id ∧
      keyedBy (sendFriendRequest genW 0 0 "u1" "u2" [] []).2.1 User.id ∧
      keyedBy (sendFriendRequest genW 0 0 "u1" "u2" [] []).2.2 Notification.id ∧
      keyedBy (checkForHangoutOverlaps genW 0 0 "e1" eventInputW [] [] [])
        Notification.id :=
  stores_keyed_by_id genW 0 0 "e@x.com" "pw" "un" "fn" "hi" "u1" "u2" "u1" "u2" "e1"
    eventInputW [] [] [] [] [] (by simp [keyedBy]) (by simp [keyedBy])
    (by simp [keyedBy]) (by simp [keyedBy])

/-! ### Structure of the notifications generated by `checkForHangoutOverlaps` -/

theorem mem_notifsForMatches (gen : Nat → String) (now : Int) (eventId : String)
    (event : EventInput) (n : Notification) :
    ∀ (c : Nat) (pairs : List (String × Event)),
      n ∈ notifsForMatches gen now eventId event c pairs →
      ∃ i pr, pr ∈ pairs ∧
        (n = hangoutMatchNotif (gen i) event.userId pr.1 (overlapOf event pr.2)
            eventId pr.2.id now ∨
          n = hangoutMatchNotif (gen i) pr.1 event.userId (overlapOf event pr.2)
            eventId pr.2.id now) ∧
        c ≤ i := by
  intro c pairs
  induction pairs generalizing c with
  | nil => intro h; exact absurd h (List.not_mem_nil n)
  | cons pr rest ih =>
    rcases pr with ⟨friendId, friendEvent⟩
    intro h
    simp only [notifsForMatches, List.mem_cons] at h
    rcases h with h | h | h
    · exact ⟨c, (friendId, friendEvent), List.mem_cons_self _ _, Or.inl h, le_refl c⟩
    · exact ⟨c + 1, (friendId, friendEvent), List.mem_cons_self _ _, Or.inr h, Nat.le_succ c⟩
    · rcases ih (c + 2) h with ⟨i, pr', hpr, hn, hci⟩
      exact ⟨i, pr', List.mem_cons_of_mem _ hpr, hn, le_trans (by omega) hci⟩

theorem mem_matchedFriendEvents (event : EventInput) (friends : List String)
    (events : Store Event) (pr : String × Event)
    (h : pr ∈ matchedFriendEvents event friends events) :
    pr.1 ∈ friends ∧ pr.2 ∈ vals events ∧ pr.2.userId = pr.1 ∧
      pr.2.type = "hangout" ∧ (fbOverlap event pr.2).isSome = true := by
  unfold matchedFriendEvents at h
  rcases List.mem_flatMap.mp h with ⟨friendId, hfid, hmem⟩
  rcases List.mem_map.mp hmem with ⟨fe, hfe, rfl⟩
  rcases List.mem_filter.mp hfe with ⟨hfe_mem, hcond⟩
  simp only [Bool.and_eq_true, beq_iff_eq] at hcond
  exact ⟨hfid, hfe_mem, hcond.1, hcond.2.1, hcond.2.2⟩

theorem vals_foldl_objSet_subset (ns : List Notification) (m : Store Notification)
    (x : Notification)
    (hx : x ∈ vals (ns.foldl (fun acc n => objSet acc n.id n) m)) :
    x ∈ vals m ∨ x ∈ ns := by
  induction ns generalizing m with
  | nil => exact Or.inl hx
  | cons n t ih =>
    rcases ih (objSet m n.id n) hx with h | h
    · rcases vals_objSet_subset m n.id n x h with h' | h'
      · exact Or.inl h'
      · exact Or.inr (h' ▸ List.mem_cons_self n t)
    · exact Or.inr (List.mem_cons_of_mem n h)

theorem notifsForMatches_ids_nodup (gen : Nat → String) (now : Int) (eventId : String)
    (event : EventInput) (hinj : Function.Injective gen) :
    ∀ (c : Nat) (pairs : List (String × Event)),
      ((notifsForMatches gen now eventId event c pairs).map Notification.id).Nodup := by
  intro c pairs
  induction pairs generalizing c with
  | nil => exact List.nodup_nil
  | cons pr rest ih =>
    rcases pr with ⟨friendId, friendEvent⟩
    simp only [notifsForMatches, List.map_cons]
    rw [List.nodup_cons, List.nodup_cons]
    refine ⟨?_, ?_, ih (c + 2)⟩
    · intro hmem
      rcases List.mem_cons.mp hmem with h | h
      · have h2 : gen c = gen (c + 1) := h
        have := hinj h2
        omega
      · rcases List.mem_map.mp h with ⟨n, hn, hne⟩
        rcases mem_notifsForMatches gen now eventId event n (c + 2) rest hn with
          ⟨i, pr', _, hform, hci⟩
        have hid : n.id = gen i := by rcases hform with rfl | rfl <;> rfl
        rw [hid] at hne
        have := hinj hne
        omega
    · intro hmem
      rcases List.mem_map.mp hmem with ⟨n, hn, hne⟩
      rcases mem_notifsForMatches gen now eventId event n (c + 2) rest hn with
        ⟨i, pr', _, hform, hci⟩
      have hid : n.id = gen i := by rcases hform with rfl | rfl <;> rfl
      rw [hid] at hne
      have := hinj hne
      omega

theorem foldl_objSet_append (ns : List Notification) :
    ∀ (m : Store Notification), (∀ n ∈ ns, n.id ∉ keys m) →
      ((ns.map Notification.id).Nodup) →
      ns.foldl (fun acc n => objSet acc n.id n) m = m ++ ns.map fun n => (n.id, n) := by
  induction ns with
  | nil =>
    intro m _ _
    simp
  | cons n t ih =>
    intro m hfresh hnd
    have h1 : objSet m n.id n = m ++ [(n.id, n)] :=
      objSet_of_not_mem_keys m n.id n (hfresh n (List.mem_cons_self n t))
    rw [List.map_cons] at hnd
    have hnd' := List.nodup_cons.mp hnd
    have hfresh' : ∀ x ∈ t, x.id ∉ keys (m ++ [(n.id, n)]) := by
      intro x hx
      simp only [keys, List.map_append]
      intro hmem
      rcases List.mem_append.mp hmem with h | h
      · exact hfresh x (List.mem_cons_of_mem n hx) h
      · simp only [List.map_cons, List.map_nil, List.mem_singleton] at h
        exact hnd'.1 (h ▸ List.mem_map_of_mem Notification.id hx)
    rw [List.foldl_cons, h1, ih (m ++ [(n.id, n)]) hfresh' hnd'.2, List.map_cons,
      List.append_assoc]
    rfl

theorem refsPair_hangoutMatchNotif (nid target matched : String) (ov : Overlap)
    (eid feid tgt : String) (now : Int) :
    refsPair (hangoutMatchNotif nid target matched ov eid feid now).data eid tgt =
      (feid == tgt) := by
  simp [refsPair, hangoutMatchNotif]

theorem filter_notifsForMatches_nil (gen : Nat → String) (now : Int) (eventId : String)
    (event : EventInput) (tgt : String) :
    ∀ (c : Nat) (pairs : List (String × Event)),
      (∀ pr ∈ pairs, (pr.2.id == tgt) = false) →
      (notifsForMatches gen now eventId event c pairs).filter
        (fun n => refsPair n.data eventId tgt) = [] := by
  intro c pairs
  induction pairs generalizing c with
  | nil => intro _; rfl
  | cons pr rest ih =>
    rcases pr with ⟨friendId, friendEvent⟩
    intro hall
    have hhead : (friendEvent.id == tgt) = false :=
      hall (friendId, friendEvent) (List.mem_cons_self _ _)
    simp only [notifsForMatches, List.filter_cons, refsPair_hangoutMatchNotif, hhead,
      Bool.false_eq_true, if_false]
    exact ih (c + 2) fun pr hpr => hall pr (List.mem_cons_of_mem _ hpr)

theorem filter_notifsForMatches_single (gen : Nat → String) (now : Int) (eventId : String)
    (event : EventInput) (tgt friendId : String) (fe : Event) :
    ∀ (c : Nat) (pairs : List (String × Event)),
      pairs.filter (fun pr => pr.2.id == tgt) = [(friendId, fe)] →
      ∃ c', (notifsForMatches gen now eventId event c pairs).filter
          (fun n => refsPair n.data eventId tgt) =
        [hangoutMatchNotif (gen c') event.userId friendId (overlapOf event fe)
            eventId fe.id now,
          hangoutMatchNotif (gen (c' + 1)) friendId event.userId (overlapOf event fe)
            eventId fe.id now] := by
  intro c pairs
  induction pairs generalizing c with
  | nil =>
    intro h
    exact absurd h (by simp)
  | cons pr rest ih =>
    rcases pr with ⟨fid0, fe0⟩
    intro h
    rw [List.filter_cons] at h
    cases hb : (fe0.id == tgt) with
    | true =>
      rw [if_pos (by exact hb)] at h
      injection h with h1 h2
      have h1a : fid0 = friendId := congrArg Prod.fst h1
      have h1b : fe0 = fe := congrArg Prod.snd h1
      subst h1a
      subst h1b
      refine ⟨c, ?_⟩
      have hall : ∀ pr ∈ rest, (pr.2.id == tgt) = false := by
        intro pr hpr
        have := List.filter_eq_nil_iff.mp h2 pr hpr
        cases hx : (pr.2.id == tgt) with
        | true => exact absurd hx this
        | false => rfl
      simp only [notifsForMatches, List.filter_cons, refsPair_hangoutMatchNotif, hb, if_true]
      rw [filter_notifsForMatches_nil gen now eventId event tgt (c + 2) rest hall]
    | false =>
      rw [if_neg (by simp [hb])] at h
      rcases ih (c + 2) h with ⟨c', hc'⟩
      refine ⟨c', ?_⟩
      simp only [notifsForMatches, List.filter_cons, refsPair_hangoutMatchNotif, hb,
        Bool.false_eq_true, if_false]
      exact hc'

theorem filter_eq_single_of_pairwise_ids (l : List Event) (fe : Event) (q : Event → Bool)
    (hnd : l.Pairwise fun a b => a.id ≠ b.id) (hmem : fe ∈ l) :
    l.filter (fun x => (x.id == fe.id) && q x) = if q fe then [fe] else [] := by
  induction l with
  | nil => cases hmem
  | cons x t ih =>
    rcases List.pairwise_cons.mp hnd with ⟨hx, ht⟩
    rcases List.mem_cons.mp hmem with rfl | hmem'
    · have htail : t.filter (fun x => (x.id == fe.id) && q x) = [] := by
        rw [List.filter_eq_nil_iff]
        intro a ha
        simp only [Bool.and_eq_true, beq_iff_eq, not_and]
        intro hcon
        exact absurd hcon.symm (hx a ha)
      cases hq : q fe with
      | true => simp [List.filter_cons, htail, hq]
      | false => simp [List.filter_cons, htail, hq]
    · have hxne : (x.id == fe.id) = false := beq_eq_false_iff_ne.mpr (hx fe hmem')
      rw [List.filter_cons]
      simp only [hxne, Bool.false_and, Bool.false_eq_true, if_false]
      exact ih ht hmem'

theorem flatMap_if_single {β : Type} (l : List String) (a : String) (f : String → List β)
    (y : β) (hnd : l.Nodup) (hmem : a ∈ l)
    (hf : ∀ x, f x = if a == x then [y] else []) : l.flatMap f = [y] := by
  induction l with
  | nil => cases hmem
  | cons x t ih =>
    rcases List.nodup_cons.mp hnd with ⟨hx, ht⟩
    rw [List.flatMap_cons]
    rcases List.mem_cons.mp hmem with rfl | hmem'
    · have htail : t.flatMap f = [] := by
        rw [List.flatMap_eq_nil_iff]
        intro z hz
        rw [hf z, if_neg]
        simp only [beq_iff_eq]
        intro he
        exact hx (he ▸ hz)
      rw [hf a, if_pos (by simp), htail]
      rfl
    · have hxa : (a == x) = false :=
        beq_eq_false_iff_ne.mpr fun he => hx (he ▸ hmem')
      rw [hf x, if_neg (by simp [hxa])]
      simpa using ih ht hmem'

theorem filter_matchedFriendEvents (event : EventInput) (friends : List String)
    (events : Store Event) (friendId : String) (friendEvent : Event)
    (hnd : friends.Nodup) (hfr : friendId ∈ friends)
    (hids : (vals events).Pairwise fun a b => a.id ≠ b.id)
    (hmem : friendEvent ∈ vals events) (howner : friendEvent.userId = friendId)
    (htype : friendEvent.type = "hangout")
    (hovl : (fbOverlap event friendEvent).isSome = true) :
    (matchedFriendEvents event friends events).filter
        (fun pr => pr.2.id == friendEvent.id) = [(friendId, friendEvent)] := by
  unfold matchedFriendEvents
  rw [List.filter_flatMap]
  apply flatMap_if_single friends friendId _ (friendId, friendEvent) hnd hfr
  intro fid'
  rw [List.filter_map]
  have hcomp : ((fun pr : String × Event => pr.2.id == friendEvent.id) ∘
      fun friendEvent_1 => (fid', friendEvent_1)) =
      fun a : Event => a.id == friendEvent.id := funext fun a => rfl
  rw [hcomp, List.filter_filter]
  rw [filter_eq_single_of_pairwise_ids (vals events) friendEvent _ hids hmem]
  have hq : (friendEvent.userId == fid' &&
      (friendEvent.type == "hangout" && (fbOverlap event friendEvent).isSome)) =
      (friendId == fid') := by
    rw [howner, htype, hovl]
    simp
  rw [hq]
  cases hfid : (friendId == fid') with
  | true =>
    rw [beq_iff_eq.mp hfid]
    simp
  | false => simp

theorem fbOverlap_eq_some (event : EventInput) (fe : Event) (ov : Overlap)
    (h : fbOverlap event fe = some ov) : ov = overlapOf event fe := by
  simp only [fbOverlap] at h
  split_ifs at h with hc
  exact (Option.some_inj.mp h).symm

/-! ### Claim C3: two notifications per hangout match -/

/-- Claim C3: whenever a newly created hangout event overlaps a friend's
hangout event, the notifications store gains exactly the notifications
generated by the scan, and among them exactly two reference the matched pair
of event ids: one targeting the creating event's owner and one targeting the
friend, both of type `hangout_match` and both carrying the overlapping
interval and the two event ids in their data payload. -/
theorem checkForHangoutOverlaps_two_notifications (gen : Nat → String) (c0 : Nat)
    (now : Int) (eventId : String) (event : EventInput)
    (users : Store User) (events : Store Event) (notifications : Store Notification)
    (userData : User) (friendId : String) (friendEvent : Event) (ov : Overlap)
    (hinj : Function.Injective gen)
    (hfresh : ∀ i, gen i ∉ keys notifications)
    (huser : lookup users event.userId = some userData)
    (hnodupF : userData.friends.Nodup)
    (hids : (vals events).Pairwise fun a b => a.id ≠ b.id)
    (hfr : friendId ∈ userData.friends)
    (hmem : friendEvent ∈ vals events)
    (howner : friendEvent.userId = friendId)
    (htype : friendEvent.type = "hangout")
    (hovl : fbOverlap event friendEvent = some ov) :
    ∃ added : List Notification,
      checkForHangoutOverlaps gen c0 now eventId event users events notifications =
          notifications ++ added.map (fun n => (n.id, n)) ∧
        ∃ i1 i2,
          added.filter (fun n => refsPair n.data eventId friendEvent.id) =
            [hangoutMatchNotif i1 event.userId friendId ov eventId friendEvent.id now,
              hangoutMatchNotif i2 friendId event.userId ov eventId friendEvent.id now] := by
  have hovs : (fbOverlap event friendEvent).isSome = true := by rw [hovl]; rfl
  have hpairs : (matchedFriendEvents event userData.friends events).filter
      (fun pr => pr.2.id == friendEvent.id) = [(friendId, friendEvent)] :=
    filter_matchedFriendEvents event userData.friends events friendId friendEvent
      hnodupF hfr hids hmem howner htype hovs
  refine ⟨notifsForMatches gen now eventId event c0
      (matchedFriendEvents event userData.friends events), ?_, ?_⟩
  · have h1 : checkForHangoutOverlaps gen c0 now eventId event users events notifications =
        (notifsForMatches gen now eventId event c0
            (matchedFriendEvents event userData.friends events)).foldl
          (fun m n => objSet m n.id n) notifications := by
      unfold checkForHangoutOverlaps
      rw [huser]
    rw [h1]
    apply foldl_objSet_append
    · intro n hn
      rcases mem_notifsForMatches gen now eventId event n c0 _ hn with
        ⟨i, pr, _, hform, _⟩
      have hid : n.id = gen i := by rcases hform with rfl | rfl <;> rfl
      rw [hid]
      exact hfresh i
    · exact notifsForMatches_ids_nodup gen now eventId event hinj c0 _
  · rcases filter_notifsForMatches_single gen now eventId event friendEvent.id friendId
        friendEvent c0 _ hpairs with ⟨c', hc'⟩
    have hov2 : ov = overlapOf event friendEvent := fbOverlap_eq_some _ _ _ hovl
    refine ⟨gen c', gen (c' + 1), ?_⟩
    rw [hov2]
    exact hc'

theorem genW_inj : Function.Injective genW := by
  intro a b h
  have h2 : (genW a).data.length = (genW b).data.length := by rw [h]
  simpa [genW] using h2

/-- Witness for claim C3: `u1` creates the hangout 0..10 having friend `u2`
with the overlapping hangout 5..15 stored as `e2`; exactly the two expected
notifications are generated, carrying the interval 5..10. -/
theorem checkForHangoutOverlaps_two_notifications_witness :
    ∃ added : List Notification,
      checkForHangoutOverlaps genW 0 0 "e1" eventInputW usersW eventsW [] =
          [] ++ added.map (fun n => (n.id, n)) ∧
        ∃ i1 i2,
          added.filter (fun n => refsPair n.data "e1" friendEventW.id) =
            [hangoutMatchNotif i1 eventInputW.userId "u2" ⟨5, 10⟩ "e1"
                friendEventW.id 0,
              hangoutMatchNotif i2 "u2" eventInputW.userId ⟨5, 10⟩ "e1"
                friendEventW.id 0] :=
  checkForHangoutOverlaps_two_notifications genW 0 0 "e1" eventInputW usersW eventsW []
    u1W "u2" friendEventW ⟨5, 10⟩ genW_inj (fun i => List.not_mem_nil _)
    (by decide) (by decide) (by simp [eventsW, vals]) (by decide) (by decide)
    (by decide) (by decide) (by decide)

/-! ### Claim C5: hangout-match notifications only for friend hangouts -/

/-- Claim C5: `createEvent` leaves the notifications store unchanged unless
the created event has type "hangout", and every notification it adds is a
`hangout_match` notification arising from a stored event of type "hangout"
whose owner appears in the creating user's friends list and whose time range
passes the overlap test. -/
theorem createEvent_hangout_match_only (gen : Nat → String) (c0 : Nat) (now : Int)
    (event : EventInput) (users : Store User) (events : Store Event)
    (notifications : Store Notification) :
    (event.type ≠ "hangout" →
        (createEvent gen c0 now event users events notifications).2.2 = notifications) ∧
      ∀ n ∈ vals (createEvent gen c0 now event users events notifications).2.2,
        n ∉ vals notifications →
        n.type = "hangout_match" ∧ event.type = "hangout" ∧
          ∃ userData friendId friendEvent,
            lookup users event.userId = some userData ∧
            friendId ∈ userData.friends ∧
            friendEvent ∈ vals (objSet events (gen c0)
              { toEventInput := event, id := gen c0, createdAt := now }) ∧
            friendEvent.userId = friendId ∧ friendEvent.type = "hangout" ∧
            (fbOverlap event friendEvent).isSome = true := by
  constructor
  · intro hne
    have hb : (event.type == "hangout") = false := beq_eq_false_iff_ne.mpr hne
    simp [createEvent, hb]
  · intro n hn hnotin
    cases hb : (event.type == "hangout") with
    | false =>
      rw [show (createEvent gen c0 now event users events notifications).2.2 =
          notifications by simp [createEvent, hb]] at hn
      exact absurd hn hnotin
    | true =>
      rw [show (createEvent gen c0 now event users events notifications).2.2 =
          checkForHangoutOverlaps gen (c0 + 1) now (gen c0) event users
            (objSet events (gen c0)
              { toEventInput := event, id := gen c0, createdAt := now })
            notifications by simp [createEvent, hb]] at hn
      unfold checkForHangoutOverlaps at hn
      cases hl : lookup users event.userId with
      | none =>
        rw [hl] at hn
        exact absurd hn hnotin
      | some userData =>
        rw [hl] at hn
        rcases vals_foldl_objSet_subset _ _ _ hn with h | h
        · exact absurd h hnotin
        · rcases mem_notifsForMatches gen now (gen c0) event n (c0 + 1) _ h with
            ⟨i, pr, hpr, hform, _⟩
          have htype : n.type = "hangout_match" := by rcases hform with rfl | rfl <;> rfl
          rcases mem_matchedFriendEvents event userData.friends _ pr hpr with
            ⟨h1, h2, h3, h4, h5⟩
          exact ⟨htype, beq_iff_eq.mp hb, userData, pr.1, pr.2, rfl, h1, h2, h3, h4, h5⟩

end PopIn
